import Mathlib

/-!
# Verification of the python-ocf declaration/dispatch/metadata engine

Shallow embedding of `src/ocf/ra.py` (together with the exit-code constants of
`src/ocf/__init__.py` and the environment accessors of `src/ocf/environment.py`
that the dispatcher reads).  Python dictionaries are modelled as
insertion-ordered association lists, matching the CPython guarantee that
assignment to an existing key keeps its position and a new key is appended.
Python exceptions are modelled with an explicit error type and `Except`;
`sys.exit` and the interpreter-level handling of an exception that escapes
`main` are modelled by an explicit process-outcome type.
-/

namespace PyOCF

/-! ## Exit codes (`src/ocf/__init__.py`) -/

def OCF_SUCCESS : Nat := 0
def OCF_ERR_GENERIC : Nat := 1
def OCF_ERR_ARGS : Nat := 2
def OCF_ERR_UNIMPLEMENTED : Nat := 3
def OCF_ERR_PERM : Nat := 4
def OCF_ERR_INSTALLED : Nat := 5
def OCF_ERR_CONFIGURED : Nat := 6
def OCF_NOT_RUNNING : Nat := 7
def OCF_RUNNING_MASTER : Nat := 8
def OCF_FAILED_MASTER : Nat := 9

/-! ## Python runtime fragments -/

/-- The Python exceptions raised by the embedded code. -/
inductive PyError where
  | valueError (msg : String)
  | notImplementedError (msg : String)
  | assertionError
  | keyError (key : String)
  deriving DecidableEq, Repr

/-- Python values produced by parameter resolution: `None`, a `str`, an `int`
or a `bool`. -/
inductive PyValue where
  | none
  | str (s : String)
  | int (n : Int)
  | bool (b : Bool)
  deriving DecidableEq, Repr

/-- Insertion-ordered association list: the model of a Python `dict`. -/
abbrev ODict (α : Type) := List (String × α)

/-- `d[k] = v` on a Python dict: an existing key keeps its position and gets
the new value; a fresh key is appended at the end. -/
def odSet {α : Type} (d : ODict α) (k : String) (v : α) : ODict α :=
  if d.any (fun kv => kv.1 = k) then
    d.map (fun kv => if kv.1 = k then (k, v) else kv)
  else
    d ++ [(k, v)]

/-- `d[k]` lookup on a Python dict (first, and only, binding of `k`). -/
def odGet {α : Type} (d : ODict α) (k : String) : Option α :=
  (d.find? (fun kv => kv.1 = k)).map (fun kv => kv.2)

/-- `list(d)` on a Python dict: the keys in insertion order. -/
def odKeys {α : Type} (d : ODict α) : List String :=
  d.map (fun kv => kv.1)

/-- Strip leading and trailing whitespace, as `int(str)` does before parsing. -/
def pyStripWs (cs : List Char) : List Char :=
  ((cs.dropWhile Char.isWhitespace).reverse.dropWhile Char.isWhitespace).reverse

/-- Numeric value of a digit string. -/
def digitsVal (cs : List Char) : Nat :=
  cs.foldl (fun a c => a * 10 + (c.toNat - 48)) 0

/-- Model of Python `int(s)` on a string: optional surrounding whitespace, an
optional sign, then a non-empty run of decimal digits; anything else raises
`ValueError`. -/
def pyIntOfString (s : String) : Option Int :=
  match pyStripWs s.data with
  | [] => Option.none
  | c :: cs =>
    if c = '-' then
      if cs ≠ [] ∧ cs.all Char.isDigit then Option.some (-(digitsVal cs : Int))
      else Option.none
    else if c = '+' then
      if cs ≠ [] ∧ cs.all Char.isDigit then Option.some ((digitsVal cs : Int))
      else Option.none
    else if (c :: cs).all Char.isDigit then
      Option.some ((digitsVal (c :: cs) : Int))
    else Option.none

/-! ## `Parameter` (`src/ocf/ra.py` lines 87-249) -/

/-- The accepted-true token list used by boolean coercion; the source comment
says it comes from `ocf-shellfuncs:ocf_is_true`. -/
def ocfTrueTokens : List String :=
  ["yes", "true", "1", "YES", "TRUE", "ya", "on", "ON"]

/-- The attributes of an `ocf.ra.Parameter` instance.  `name` is assigned by
`contribute_to_class` when the parameter is registered; `content` is kept as a
raw string exactly as in the source (it is validated, not parsed, by
`__init__`).  `default` is the documented string-or-None default. -/
structure Parameter where
  shortdesc : String
  longdesc : String
  unique : Bool
  required : Bool
  content : String
  default : Option String
  name : String := ""
  deriving DecidableEq, Repr

/-- `Parameter._validate_coerce` (lines 201-212): `string` returns the value
unchanged, `integer` parses base 10 and raises `ValueError` on failure,
`boolean` tests membership in the accepted-true token list and never fails;
any other content kind raises `NotImplementedError`. -/
def Parameter.validateCoerce (p : Parameter) (value : String) : Except PyError PyValue :=
  if p.content = "string" then
    Except.ok (PyValue.str value)
  else if p.content = "integer" then
    match pyIntOfString value with
    | Option.some n => Except.ok (PyValue.int n)
    | Option.none =>
        Except.error (PyError.valueError
          ("invalid literal for int() with base 10: " ++ value))
  else if p.content = "boolean" then
    Except.ok (PyValue.bool (value ∈ ocfTrueTokens))
  else
    Except.error (PyError.notImplementedError
      ("Unknown parameter type: " ++ p.content))

/-- `Parameter.__init__` (lines 147-166): stores the attributes, then raises
`ValueError` if `content` is not one of the three kinds, then, if a default is
given, raises `ValueError` when the parameter is also required and otherwise
runs the default through `_validate_coerce` (discarding the coerced value). -/
def Parameter.init (shortdesc longdesc : String) (unique required : Bool)
    (content : String) (default : Option String) : Except PyError Parameter :=
  let p : Parameter :=
    { shortdesc := shortdesc, longdesc := longdesc, unique := unique,
      required := required, content := content, default := default }
  if content ∉ ["string", "integer", "boolean"] then
    Except.error (PyError.valueError
      "content must be one of string, integer or boolean")
  else
    match default with
    | Option.none => Except.ok p
    | Option.some d =>
      if required then
        Except.error (PyError.valueError
          "parameter cannot both be required and have a default value")
      else
        (p.validateCoerce d).map (fun _ => p)

/-- The Python value of `self.default`: `None` or the stored string. -/
def pyOfOptStr : Option String → PyValue
  | Option.none => PyValue.none
  | Option.some s => PyValue.str s

/-- `Parameter._value` (lines 214-225): look the parameter name up in
`ocf.env.reskey`; on `KeyError`, raise `ValueError` when required and
otherwise return `self.default` verbatim; when the key is present, return
`_validate_coerce(value)`. -/
def Parameter.value (p : Parameter) (reskey : ODict String) : Except PyError PyValue :=
  match odGet reskey p.name with
  | Option.none =>
    if p.required then
      Except.error (PyError.valueError
        ("Required parameter " ++ p.name ++ " not set"))
    else
      Except.ok (pyOfOptStr p.default)
  | Option.some v => p.validateCoerce v

/-! ## XML element trees (the fragment of `lxml.etree` the source uses)

`etree.SubElement(parent, tag, …)` appends a fresh child at the end of the
parent's child list; `elem.set(k, v)` appends an attribute. -/

/-- An XML element: tag, attributes in assignment order, optional text,
children in creation order. -/
inductive Xml where
  | elem (tag : String) (attrs : List (String × String))
      (text : Option String) (children : List Xml)

def Xml.tag : Xml → String
  | .elem t _ _ _ => t

def Xml.attrs : Xml → List (String × String)
  | .elem _ a _ _ => a

def Xml.text : Xml → Option String
  | .elem _ _ s _ => s

def Xml.children : Xml → List Xml
  | .elem _ _ _ c => c

/-- `etree.SubElement`: append a child at the end of the child list. -/
def Xml.addChild (x : Xml) (c : Xml) : Xml :=
  match x with
  | .elem t a s cs => .elem t a s (cs ++ [c])

/-- Attribute lookup on an element. -/
def Xml.attr (x : Xml) (k : String) : Option String :=
  (x.attrs.find? (fun kv => kv.1 = k)).map (fun kv => kv.2)

/-- First child with the given tag. -/
def Xml.findChild (x : Xml) (t : String) : Option Xml :=
  x.children.find? (fun c => c.tag = t)

/-- The `<parameter>` node built by `Parameter.append_xml` (lines 182-199):
`name` and `unique` attributes, a `required` attribute only when required,
`longdesc`/`shortdesc` children and a `<content>` child whose `default`
attribute is present only for a non-required parameter with a default. -/
def paramElem (p : Parameter) : Xml :=
  let pAttrs := [("name", p.name), ("unique", if p.unique then "1" else "0")]
  let pAttrs := pAttrs ++ (if p.required then [("required", "1")] else [])
  let cAttrs := [("type", p.content)]
  let cAttrs := cAttrs ++
    (match p.default with
     | Option.some d => if p.required then [] else [("default", d)]
     | Option.none => [])
  Xml.elem "parameter" pAttrs Option.none
    [ Xml.elem "longdesc" [("lang", "en")] (Option.some p.longdesc) [],
      Xml.elem "shortdesc" [("lang", "en")] (Option.some p.shortdesc) [],
      Xml.elem "content" cAttrs Option.none [] ]

/-- `Parameter.append_xml`: append the `<parameter>` node to the
`<parameters>` element. -/
def Parameter.appendXml (p : Parameter) (parameters : Xml) : Xml :=
  parameters.addChild (paramElem p)

/-! ## `Action` (`src/ocf/ra.py` lines 252-381) -/

/-- The scheduling hints held by one `Action` instance. -/
structure ActionHints where
  timeout : Nat := 20
  interval : Option Int := Option.none
  startDelay : Option Int := Option.none
  depth : Option Int := Option.none
  role : Option String := Option.none
  deriving DecidableEq, Repr

/-- A fully applied `Action` decorator: each link holds the action name, its
own scheduling hints and either the wrapped plain function (identified by its
`__name__`) or the next `Action` link of the chain. -/
inductive ActionObj where
  | term (name : String) (hints : ActionHints) (funcName : String)
  | wrap (name : String) (hints : ActionHints) (inner : ActionObj)
  deriving DecidableEq, Repr

def ActionObj.name : ActionObj → String
  | .term n _ _ => n
  | .wrap n _ _ => n

/-- `Action.action_method` (lines 319-331): walk the chain down to the wrapped
plain function. -/
def ActionObj.actionMethod : ActionObj → String
  | .term _ _ f => f
  | .wrap _ _ inner => inner.actionMethod

/-- A decorator target: a plain function or an already decorated `Action`. -/
inductive FuncOrAction where
  | func (funcName : String)
  | act (a : ActionObj)

/-- A not-yet-applied `Action(...)` decorator: optional explicit name plus the
scheduling hints given to `Action.__init__` (lines 310-317). -/
structure ActionDecorator where
  name : Option String := Option.none
  hints : ActionHints := {}

/-- `Action.__call__` (lines 333-344): store the target; when the target is
itself an `Action`, default the name from it and assert name equality; when it
is a plain function, default the name from `__name__`. -/
def actionCall (d : ActionDecorator) (target : FuncOrAction) : Except PyError ActionObj :=
  match target with
  | .act a =>
    let n := d.name.getD a.name
    if n = a.name then Except.ok (ActionObj.wrap n d.hints a)
    else Except.error PyError.assertionError
  | .func f =>
    let n := d.name.getD f
    Except.ok (ActionObj.term n d.hints f)

/-- The `<action>` element created for one chain link by `Action.append_xml`
(lines 360-378): `name` and `timeout` attributes always, then `interval`,
`start-delay`, `depth` and `role` only when set. -/
def actionElem (name : String) (h : ActionHints) : Xml :=
  let attrs := [("name", name), ("timeout", toString h.timeout)]
  let attrs := attrs ++
    (match h.interval with
     | Option.some i => [("interval", toString i)]
     | Option.none => [])
  let attrs := attrs ++
    (match h.startDelay with
     | Option.some v => [("start-delay", toString v)]
     | Option.none => [])
  let attrs := attrs ++
    (match h.depth with
     | Option.some v => [("depth", toString v)]
     | Option.none => [])
  let attrs := attrs ++
    (match h.role with
     | Option.some v => [("role", v)]
     | Option.none => [])
  Xml.elem "action" attrs Option.none []

/-- `Action.append_xml` (lines 360-381): append this link's `<action>` element
to the `<actions>` element, then recurse on the wrapped `Action`, if any,
against the same `<actions>` parent. -/
def ActionObj.appendXml (a : ActionObj) (actions : Xml) : Xml :=
  match a with
  | .term n h _ => actions.addChild (actionElem n h)
  | .wrap n h inner => inner.appendXml (actions.addChild (actionElem n h))

/-- Specification-level view of a chain: the (name, hints) pair of every link,
outermost (declaration-order first) link first. -/
def ActionObj.links : ActionObj → List (String × ActionHints)
  | .term n h _ => [(n, h)]
  | .wrap n h inner => (n, h) :: inner.links

/-! ## `ResourceAgentType` registry assembly (`src/ocf/ra.py` lines 29-84)

Because the aliasing of the `_ACTIONS` / `_PARAMETERS` dict objects between a
class and its subclasses is observable, class creation is modelled with an
explicit heap of dict objects: a class holds references (ids) into the heap,
and mutating a dict through one reference is visible through every alias. -/

/-- Association list keyed by heap ids. -/
def refSet {α : Type} (s : List (Nat × α)) (i : Nat) (v : α) : List (Nat × α) :=
  if s.any (fun kv => kv.1 = i) then
    s.map (fun kv => if kv.1 = i then (i, v) else kv)
  else
    s ++ [(i, v)]

def refGet {α : Type} (s : List (Nat × α)) (i : Nat) : Option α :=
  (s.find? (fun kv => kv.1 = i)).map (fun kv => kv.2)

/-- The heap of dict objects created by `ResourceAgentType.__new__`. -/
structure Heap where
  nextId : Nat
  actStore : List (Nat × ODict ActionObj)
  parStore : List (Nat × ODict Parameter)

/-- A class built by the metaclass: references to its `_ACTIONS` and
`_PARAMETERS` dict objects. -/
structure RAClass where
  actionsRef : Nat
  paramsRef : Nat

/-- The `_ACTIONS` dict a class currently sees through its reference. -/
def classActions (h : Heap) (cls : RAClass) : ODict ActionObj :=
  (refGet h.actStore cls.actionsRef).getD []

/-- The `_PARAMETERS` dict a class currently sees through its reference. -/
def classParams (h : Heap) (cls : RAClass) : ODict Parameter :=
  (refGet h.parStore cls.paramsRef).getD []

/-- A class-body attribute handed to the metaclass: a `Parameter`, an
`Action` chain, or any other value (methods, constants, …). -/
inductive ClassAttr where
  | param (p : Parameter)
  | action (a : ActionObj)
  | plain

/-- `ResourceAgentType.add_to_class` (lines 64-84) for one attribute:
`Parameter.contribute_to_class` (lines 168-180) stores the parameter in the
`_PARAMETERS` dict under the attribute name and records that name in the
parameter; `Action.contribute_to_class` (lines 346-358) stores the chain in
the `_ACTIONS` dict under the action's own name; anything else is a plain
`setattr` with no registry effect. -/
def addToClass (h : Heap) (cls : RAClass) (attrName : String) : ClassAttr → Heap
  | .param p =>
    let d := classParams h cls
    { h with parStore :=
        refSet h.parStore cls.paramsRef (odSet d attrName { p with name := attrName }) }
  | .action a =>
    let d := classActions h cls
    { h with actStore :=
        refSet h.actStore cls.actionsRef (odSet d a.name a) }
  | .plain => h

/-- `ResourceAgentType.__new__` (lines 38-62): for a class with a parent that
has registries, `add_to_class` stores the parent's `_ACTIONS` and
`_PARAMETERS` dict objects on the new class — a dict has no
`contribute_to_class`, so this is a plain `setattr` of the very same dict
object, not a copy; for a base class the registries start as fresh empty
dicts.  Every remaining class-body attribute is then contributed in
declaration order. -/
def raTypeNew (h : Heap) (parent : Option RAClass)
    (attrs : List (String × ClassAttr)) : Heap × RAClass :=
  match parent with
  | Option.some par =>
    let cls : RAClass := { actionsRef := par.actionsRef, paramsRef := par.paramsRef }
    (attrs.foldl (fun h nv => addToClass h cls nv.1 nv.2) h, cls)
  | Option.none =>
    let aRef := h.nextId
    let pRef := h.nextId + 1
    let h : Heap :=
      { nextId := h.nextId + 2,
        actStore := refSet h.actStore aRef [],
        parStore := refSet h.parStore pRef [] }
    let cls : RAClass := { actionsRef := aRef, paramsRef := pRef }
    (attrs.foldl (fun h nv => addToClass h cls nv.1 nv.2) h, cls)

/-! ## `ResourceAgent.__init__` (`src/ocf/ra.py` lines 466-476) -/

/-- The mandatory action set, in the order the source lists it. -/
def requiredActionNames : List String := ["start", "stop", "monitor", "meta-data"]

/-- The mandatory action names missing from an action registry
(`required_actions - frozenset(self._ACTIONS)`, as a list). -/
def missingActions (actions : ODict ActionObj) : List String :=
  requiredActionNames.filter (fun nm => nm ∉ odKeys actions)

/-- `sorted(...)` on a list of strings. -/
def sortStrings (l : List String) : List String :=
  l.insertionSort (fun a b => a ≤ b)

/-- The `NotImplementedError` message format of `ResourceAgent.__init__`. -/
def incompleteMsg (clsName : String) (missing : List String) : String :=
  clsName ++ " is incomplete; it is missing the following required actions: "
    ++ String.intercalate ", " missing

/-- `ResourceAgent.__init__`: raise `NotImplementedError` naming the missing
mandatory actions in sorted order when any of `start`, `stop`, `monitor`,
`meta-data` is absent from the action registry. -/
def raInit (actions : ODict ActionObj) (clsName : String) : Except PyError Unit :=
  let missing := missingActions actions
  if missing = [] then Except.ok ()
  else
    Except.error (PyError.notImplementedError
      (incompleteMsg clsName (sortStrings missing)))

/-! ## The dispatcher `ResourceAgent.execute` (`src/ocf/ra.py` lines 478-538) -/

/-- The environment state the dispatcher reads: `ocf.env.action` (first
command-line argument, if any) and `ocf.env.reskey` (the `OCF_RESKEY_`
parameter map). -/
structure Env where
  action : Option String
  reskey : ODict String

/-- The behaviour of one bound handler method when invoked: it returns a
status code, or it raises an exception. -/
inductive HandlerResult where
  | ret (code : Nat)
  | raises
  deriving DecidableEq, Repr

/-- How the process run ends: `sys.exit(code)`, or an exception escaping
`main` (which the Python runtime turns into a traceback and exit status 1). -/
inductive ProcessEnd where
  | exited (code : Nat)
  | uncaught
  deriving DecidableEq, Repr

/-- The observable outcome of one `execute` run. -/
structure DispatchResult where
  outcome : ProcessEnd
  usagePrinted : Bool
  invokedHandler : Option String
  deriving DecidableEq, Repr

/-- Outcome of `ResourceAgent._validate_parameters` (lines 532-538): iterate
the parameter registry in order, calling `validate` on each; the first
`ValueError` is caught and leads to `sys.exit(OCF_ERR_CONFIGURED)`; any other
exception (impossible for well-formed content kinds) escapes. -/
inductive ValidationOutcome where
  | ok
  | configError
  | escaped (e : PyError)
  deriving DecidableEq, Repr

def validateParameters (params : ODict Parameter) (reskey : ODict String) :
    ValidationOutcome :=
  match params with
  | [] => ValidationOutcome.ok
  | (_, p) :: rest =>
    match p.value reskey with
    | Except.ok _ => validateParameters rest reskey
    | Except.error (PyError.valueError _) => ValidationOutcome.configError
    | Except.error e => ValidationOutcome.escaped e

/-- `ResourceAgent.execute` (lines 478-525): with no action, print usage and
exit `OCF_ERR_ARGS`; with an unknown action, print usage and exit
`OCF_ERR_UNIMPLEMENTED`; otherwise validate all parameters unless the action
is the literal `meta-data`, exiting `OCF_ERR_CONFIGURED` on a validation
`ValueError`; finally invoke the resolved handler method and pass its return
value to `sys.exit`.  The handler is invoked with no try/except around it, so
an exception it raises escapes `execute`. -/
def execute (actions : ODict ActionObj) (params : ODict Parameter)
    (handlers : String → HandlerResult) (env : Env) : DispatchResult :=
  match env.action with
  | Option.none =>
    { outcome := ProcessEnd.exited OCF_ERR_ARGS, usagePrinted := true,
      invokedHandler := Option.none }
  | Option.some act =>
    match odGet actions act with
    | Option.none =>
      { outcome := ProcessEnd.exited OCF_ERR_UNIMPLEMENTED, usagePrinted := true,
        invokedHandler := Option.none }
    | Option.some aobj =>
      let methodName := aobj.actionMethod
      let validation :=
        if act ≠ "meta-data" then validateParameters params env.reskey
        else ValidationOutcome.ok
      match validation with
      | ValidationOutcome.configError =>
        { outcome := ProcessEnd.exited OCF_ERR_CONFIGURED, usagePrinted := false,
          invokedHandler := Option.none }
      | ValidationOutcome.escaped _ =>
        { outcome := ProcessEnd.uncaught, usagePrinted := false,
          invokedHandler := Option.none }
      | ValidationOutcome.ok =>
        match handlers methodName with
        | HandlerResult.ret c =>
          { outcome := ProcessEnd.exited c, usagePrinted := false,
            invokedHandler := Option.some methodName }
        | HandlerResult.raises =>
          { outcome := ProcessEnd.uncaught, usagePrinted := false,
            invokedHandler := Option.some methodName }

/-- The process exit status produced by a finished run: `sys.exit(c)` ends the
process with status `c`, and an exception that escapes `main` makes the
Python interpreter terminate the process with status 1. -/
def processExitCode (r : DispatchResult) : Nat :=
  match r.outcome with
  | ProcessEnd.exited c => c
  | ProcessEnd.uncaught => 1

/-! ## `ResourceAgent.meta_data` (`src/ocf/ra.py` lines 569-619) -/

/-- `ResourceAgent.meta_data`: build the `resource-agent` element with its
`name` attribute (and `version` when the class declares one), then append the
fixed API `<version>1.0</version>`, `longdesc`, `shortdesc`, the
`<parameters>` node populated from the parameter registry in order, and the
`<actions>` node populated from the action registry in order, each chain
fully unrolled by `Action.append_xml`. -/
def metaData (name : String) (version : Option String)
    (shortdesc longdesc : String)
    (params : ODict Parameter) (actions : ODict ActionObj) : Xml :=
  let attrs := [("name", name)] ++
    (match version with
     | Option.some v => [("version", v)]
     | Option.none => [])
  let parametersNode :=
    params.foldl (fun node kv => kv.2.appendXml node) (Xml.elem "parameters" [] Option.none [])
  let actionsNode :=
    actions.foldl (fun node kv => kv.2.appendXml node) (Xml.elem "actions" [] Option.none [])
  Xml.elem "resource-agent" attrs Option.none
    [ Xml.elem "version" [] (Option.some "1.0") [],
      Xml.elem "longdesc" [("lang", "en")] (Option.some longdesc) [],
      Xml.elem "shortdesc" [("lang", "en")] (Option.some shortdesc) [],
      parametersNode,
      actionsNode ]

/-- Reading the rendered document back: the `name` attributes of the
`<parameter>` children of the `<parameters>` node, in document order. -/
def parsedParameterNames (doc : Xml) : List String :=
  match doc.findChild "parameters" with
  | Option.some ps =>
    ps.children.filterMap (fun c =>
      if c.tag = "parameter" then c.attr "name" else Option.none)
  | Option.none => []

/-- Reading the rendered document back: the `name` attributes of the
`<action>` children of the `<actions>` node, in document order. -/
def parsedActionNames (doc : Xml) : List String :=
  match doc.findChild "actions" with
  | Option.some as =>
    as.children.filterMap (fun c =>
      if c.tag = "action" then c.attr "name" else Option.none)
  | Option.none => []

/-! ## Shared lemmas -/

/-- Boolean coercion computes membership in the accepted-true token list. -/
lemma validateCoerce_boolean (p : Parameter) (hb : p.content = "boolean") (v : String) :
    p.validateCoerce v = Except.ok (PyValue.bool (decide (v ∈ ocfTrueTokens))) := by
  unfold Parameter.validateCoerce
  rw [hb]
  rw [if_neg (by decide), if_neg (by decide), if_pos rfl]

/-! ## Theorems for the claims -/

/-- **C4.** For every parameter spec with boolean content and every raw string
`v`, coercion returns the boolean saying whether `v` is one of `yes`, `true`,
`1`, `YES`, `TRUE`, `ya`, `on`, `ON`; it returns true exactly for those eight
tokens and returns false, never failing, for every other string, the empty
string and `no` included. -/
theorem c4_boolean_coercion (p : Parameter) (hb : p.content = "boolean") (v : String) :
    p.validateCoerce v = Except.ok (PyValue.bool (decide (v ∈ ocfTrueTokens))) ∧
    (p.validateCoerce v = Except.ok (PyValue.bool true) ↔
      v ∈ ["yes", "true", "1", "YES", "TRUE", "ya", "on", "ON"]) := by
  have h := validateCoerce_boolean p hb v
  refine ⟨h, ?_⟩
  rw [h]
  simp [ocfTrueTokens]

/-- A concrete boolean parameter used to witness C4 and C10. -/
def demoBoolParam : Parameter :=
  { shortdesc := "flag", longdesc := "a flag", unique := false,
    required := false, content := "boolean", default := Option.some "no",
    name := "flag" }

/-- Witness for C4: on the boolean parameter `demoBoolParam`, coercion maps
the strings `no` and the empty string to false and `ya` to true. -/
theorem c4_boolean_coercion_witness :
    demoBoolParam.validateCoerce "no" = Except.ok (PyValue.bool false) ∧
    demoBoolParam.validateCoerce "" = Except.ok (PyValue.bool false) ∧
    demoBoolParam.validateCoerce "ya" = Except.ok (PyValue.bool true) := by
  refine ⟨?_, ?_, ?_⟩
  · exact ((c4_boolean_coercion demoBoolParam rfl "no").1).trans rfl
  · exact ((c4_boolean_coercion demoBoolParam rfl "").1).trans rfl
  · exact ((c4_boolean_coercion demoBoolParam rfl "ya").1).trans rfl

/-- **C8.** Constructing a parameter spec that is required and has a default
value always fails with a `ValueError` (the `InvalidParameterSpec` of the
spec), and so does constructing one whose content kind is not one of
`string`, `integer`, `boolean`. -/
theorem c8_invalid_parameter_spec (sd ld : String) (u r : Bool)
    (c : String) (d : Option String) :
    (r = true → ∀ dv, d = Option.some dv →
      ∃ m, Parameter.init sd ld u r c d = Except.error (PyError.valueError m)) ∧
    (c ∉ ["string", "integer", "boolean"] →
      ∃ m, Parameter.init sd ld u r c d = Except.error (PyError.valueError m)) := by
  unfold Parameter.init
  by_cases hc : c ∈ ["string", "integer", "boolean"]
  · rw [if_neg (not_not_intro hc)]
    constructor
    · rintro rfl dv rfl
      exact ⟨_, rfl⟩
    · intro h
      exact absurd hc h
  · rw [if_pos hc]
    exact ⟨fun _ dv _ => ⟨_, rfl⟩, fun _ => ⟨_, rfl⟩⟩

/-- Witness for C8: a required string parameter with default `x` is rejected,
and so is a parameter with content kind `float`. -/
theorem c8_invalid_parameter_spec_witness :
    (∃ m, Parameter.init "s" "l" false true "string" (Option.some "x") =
      Except.error (PyError.valueError m)) ∧
    (∃ m, Parameter.init "s" "l" false false "float" Option.none =
      Except.error (PyError.valueError m)) :=
  ⟨(c8_invalid_parameter_spec "s" "l" false true "string" (Option.some "x")).1
      rfl "x" rfl,
   (c8_invalid_parameter_spec "s" "l" false false "float" Option.none).2
      (by decide)⟩

/-- **C10.** A non-required parameter whose name is absent from the parameter
map resolves to its stored default verbatim, with no content coercion: a
boolean parameter with default `no` resolves to the string `no`, while the
same string supplied in the environment resolves to the boolean false. -/
theorem c10_default_returned_verbatim (p : Parameter) (rk : ODict String)
    (hreq : p.required = false) :
    (odGet rk p.name = Option.none → p.value rk = Except.ok (pyOfOptStr p.default)) ∧
    (p.content = "boolean" → p.default = Option.some "no" →
      odGet rk p.name = Option.none → p.value rk = Except.ok (PyValue.str "no")) ∧
    (p.content = "boolean" → odGet rk p.name = Option.some "no" →
      p.value rk = Except.ok (PyValue.bool false)) := by
  refine ⟨?_, ?_, ?_⟩
  · intro habs
    unfold Parameter.value
    rw [habs, hreq]
    rfl
  · intro _ hd habs
    unfold Parameter.value
    rw [habs, hreq, hd]
    rfl
  · intro hc hpres
    unfold Parameter.value
    rw [hpres]
    exact (validateCoerce_boolean p hc "no").trans rfl

/-- Witness for C10: `demoBoolParam` (boolean, not required, default `no`)
resolves to the string `no` when absent from the parameter map but to the
boolean false when the map supplies `no`. -/
theorem c10_default_returned_verbatim_witness :
    demoBoolParam.value [] = Except.ok (PyValue.str "no") ∧
    demoBoolParam.value [("flag", "no")] = Except.ok (PyValue.bool false) :=
  ⟨(c10_default_returned_verbatim demoBoolParam [] rfl).2.1 rfl rfl rfl,
   (c10_default_returned_verbatim demoBoolParam [("flag", "no")] rfl).2.2 rfl rfl⟩

/-- **C9.** A dispatch in which the environment provides no action name prints
the usage text and exits with `OCF_ERR_ARGS` (2); no handler is invoked. -/
theorem c9_no_action_exits_err_args (actions : ODict ActionObj)
    (params : ODict Parameter) (handlers : String → HandlerResult) (env : Env)
    (h : env.action = Option.none) :
    execute actions params handlers env =
      { outcome := ProcessEnd.exited OCF_ERR_ARGS, usagePrinted := true,
        invokedHandler := Option.none } ∧
    OCF_ERR_ARGS = 2 := by
  unfold execute
  rw [h]
  exact ⟨rfl, rfl⟩

/-- Witness for C9 on an empty agent and an environment with no action. -/
theorem c9_no_action_exits_err_args_witness :
    execute [] [] (fun _ => HandlerResult.ret 0)
        { action := Option.none, reskey := [] } =
      { outcome := ProcessEnd.exited OCF_ERR_ARGS, usagePrinted := true,
        invokedHandler := Option.none } ∧
    OCF_ERR_ARGS = 2 :=
  c9_no_action_exits_err_args [] [] (fun _ => HandlerResult.ret 0)
    { action := Option.none, reskey := [] } rfl

/-- **C5.** Instantiating a concrete agent fails (with the
`NotImplementedError` that realises `IncompleteAgentDefinition`) exactly when
the assembled action registry lacks one of `start`, `stop`, `monitor`,
`meta-data`, and the error message names the missing actions in sorted
order. -/
theorem c5_incomplete_agent (actions : ODict ActionObj) (clsName : String) :
    ((∃ e, raInit actions clsName = Except.error e) ↔
      ∃ nm ∈ requiredActionNames, nm ∉ odKeys actions) ∧
    (∀ e, raInit actions clsName = Except.error e →
      ∃ m : List String,
        e = PyError.notImplementedError (incompleteMsg clsName m) ∧
        m.Sorted (fun a b => a ≤ b) ∧ m.Perm (missingActions actions)) := by
  constructor
  · unfold raInit
    by_cases hm : missingActions actions = []
    · rw [if_pos hm]
      constructor
      · rintro ⟨e, he⟩
        cases he
      · rintro ⟨nm, hmem, habs⟩
        have hin : nm ∈ missingActions actions := by
          unfold missingActions
          rw [List.mem_filter]
          exact ⟨hmem, by simpa using habs⟩
        rw [hm] at hin
        cases hin
    · rw [if_neg hm]
      constructor
      · intro _
        obtain ⟨nm, hnm⟩ := List.exists_mem_of_ne_nil _ hm
        have hf := List.mem_filter.mp hnm
        exact ⟨nm, hf.1, by simpa using hf.2⟩
      · intro _
        exact ⟨_, rfl⟩
  · intro e he
    unfold raInit at he
    by_cases hm : missingActions actions = []
    · rw [if_pos hm] at he
      cases he
    · rw [if_neg hm] at he
      injection he with h2
      refine ⟨sortStrings (missingActions actions), h2.symm, ?_, ?_⟩
      · exact List.sorted_insertionSort _ _
      · exact List.perm_insertionSort _ _

/-- The built-in `meta-data` action of the base class. -/
def demoActionMetaData : ActionObj :=
  ActionObj.term "meta-data" { timeout := 5 } "meta_data"

/-- An action registry with only `meta-data`: an incomplete agent. -/
def c5IncompleteActions : ODict ActionObj := [("meta-data", demoActionMetaData)]

/-- Witness for C5: an agent declaring only `meta-data` cannot be
instantiated, and the error message lists the missing actions sorted. -/
theorem c5_incomplete_agent_witness :
    ∃ e, raInit c5IncompleteActions "TestAgent" = Except.error e ∧
      ∃ m : List String,
        e = PyError.notImplementedError (incompleteMsg "TestAgent" m) ∧
        m.Sorted (fun a b => a ≤ b) ∧ m.Perm (missingActions c5IncompleteActions) := by
  have h := c5_incomplete_agent c5IncompleteActions "TestAgent"
  obtain ⟨e, he⟩ := h.1.mpr ⟨"start", by decide, by decide⟩
  exact ⟨e, he, h.2 e he⟩

/-- If `execute` invoked a handler, the run ends exactly as the handler did:
`sys.exit` of the returned code, or the exception escaping. -/
lemma execute_invoked (actions : ODict ActionObj) (params : ODict Parameter)
    (handlers : String → HandlerResult) (env : Env) (m : String)
    (hinv : (execute actions params handlers env).invokedHandler = Option.some m) :
    (handlers m = HandlerResult.raises →
      execute actions params handlers env =
        { outcome := ProcessEnd.uncaught, usagePrinted := false,
          invokedHandler := Option.some m }) ∧
    (∀ c, handlers m = HandlerResult.ret c →
      execute actions params handlers env =
        { outcome := ProcessEnd.exited c, usagePrinted := false,
          invokedHandler := Option.some m }) := by
  unfold execute at hinv ⊢
  cases henv : env.action with
  | none =>
    rw [henv] at hinv
    cases hinv
  | some act =>
    rw [henv] at hinv
    dsimp only at hinv ⊢
    cases hget : odGet actions act with
    | none =>
      rw [hget] at hinv
      cases hinv
    | some aobj =>
      rw [hget] at hinv
      dsimp only at hinv ⊢
      cases hv : (if act ≠ "meta-data" then validateParameters params env.reskey
          else ValidationOutcome.ok) with
      | configError =>
        rw [hv] at hinv
        cases hinv
      | escaped e =>
        rw [hv] at hinv
        cases hinv
      | ok =>
        rw [hv] at hinv
        dsimp only at hinv ⊢
        cases hh : handlers aobj.actionMethod with
        | ret c =>
          rw [hh] at hinv
          injection hinv with hm
          subst hm
          constructor
          · intro hr
            rw [hr] at hh
            cases hh
          · intro c2 hc
            rw [hc] at hh
            injection hh with hcc
            subst hcc
            rfl
        | raises =>
          rw [hh] at hinv
          injection hinv with hm
          subst hm
          constructor
          · intro _
            rfl
          · intro c2 hc
            rw [hc] at hh
            cases hh

/-- **C6.** When the dispatched handler raises, the exception escapes the
dispatcher and the run terminates with the generic error status
`OCF_ERR_GENERIC` (exit code 1, the status the interpreter assigns to an
uncaught exception); otherwise the process exit code is the status code the
handler returned. -/
theorem c6_handler_exception_generic (actions : ODict ActionObj)
    (params : ODict Parameter) (handlers : String → HandlerResult) (env : Env)
    (m : String)
    (hinv : (execute actions params handlers env).invokedHandler = Option.some m) :
    (handlers m = HandlerResult.raises →
      processExitCode (execute actions params handlers env) = OCF_ERR_GENERIC) ∧
    (∀ c, handlers m = HandlerResult.ret c →
      processExitCode (execute actions params handlers env) = c) := by
  obtain ⟨h1, h2⟩ := execute_invoked actions params handlers env m hinv
  constructor
  · intro hr
    rw [h1 hr]
    rfl
  · intro c hc
    rw [h2 c hc]
    rfl

/-- A concrete `start` action wrapping a plain `start` method. -/
def demoActionStart : ActionObj := ActionObj.term "start" { timeout := 20 } "start"

/-- Registry and environment used to witness C6. -/
def demoActions : ODict ActionObj := [("start", demoActionStart)]

def demoEnvStart : Env := { action := Option.some "start", reskey := [] }

/-- Witness for C6: a raising `start` handler ends the process with exit code
1; a handler returning 7 ends it with exit code 7. -/
theorem c6_handler_exception_generic_witness :
    processExitCode (execute demoActions [] (fun _ => HandlerResult.raises) demoEnvStart) =
      OCF_ERR_GENERIC ∧
    processExitCode (execute demoActions [] (fun _ => HandlerResult.ret 7) demoEnvStart) = 7 := by
  constructor
  · exact (c6_handler_exception_generic demoActions []
      (fun _ => HandlerResult.raises) demoEnvStart "start" rfl).1 rfl
  · exact (c6_handler_exception_generic demoActions []
      (fun _ => HandlerResult.ret 7) demoEnvStart "start" rfl).2 7 rfl

/-! ## C1: registry sharing between a parent class and its subtypes

The metaclass documentation says the actions and parameters are copied from
the parent class, but `add_to_class` stores the parent dict object itself on
the new class (a dict has no `contribute_to_class`, so the branch taken is a
plain `setattr`), so the subtype and the parent share one dict object and a
contribution made by the subtype is visible through the parent. -/

/-- A parameter declared on the demo parent class. -/
def c1ParamA : Parameter :=
  { shortdesc := "sa", longdesc := "la", unique := false, required := false,
    content := "string", default := Option.none }

/-- A parameter declared on the demo subtype. -/
def c1ParamP : Parameter :=
  { shortdesc := "sp", longdesc := "lp", unique := false, required := false,
    content := "string", default := Option.none }

/-- The empty heap before any class is created. -/
def c1Heap0 : Heap := { nextId := 0, actStore := [], parStore := [] }

/-- Creating the base class, which declares one parameter named `a`. -/
def c1ParentNew : Heap × RAClass :=
  raTypeNew c1Heap0 Option.none [("a", ClassAttr.param c1ParamA)]

/-- Creating the subtype, which contributes one parameter named `p`. -/
def c1ChildNew : Heap × RAClass :=
  raTypeNew c1ParentNew.1 (Option.some c1ParentNew.2)
    [("p", ClassAttr.param c1ParamP)]

/-- **C1** fails on the code: before the subtype is defined the parent
registry holds exactly `a`, but after the subtype contributes the parameter
`p` the registry seen through the parent class also holds `p` — the subtype
registries are not fresh independent copies but the very same dict object, so
the subtype and the parent registries stay equal even after the subtype
contribution. -/
theorem c1_parent_registry_mutated_by_subtype :
    odKeys (classParams c1ParentNew.1 c1ParentNew.2) = ["a"] ∧
    odKeys (classParams c1ChildNew.1 c1ParentNew.2) = ["a", "p"] ∧
    classParams c1ChildNew.1 c1ChildNew.2 = classParams c1ChildNew.1 c1ParentNew.2 := by
  refine ⟨rfl, rfl, rfl⟩

/-- For a parameter with a well-formed content kind, a resolution failure is
always a `ValueError` (the kind `_validate_parameters` catches). -/
lemma value_error_valueError (p : Parameter) (rk : ODict String)
    (hc : p.content ∈ ["string", "integer", "boolean"]) (e : PyError)
    (he : p.value rk = Except.error e) : ∃ m, e = PyError.valueError m := by
  unfold Parameter.value at he
  cases hget : odGet rk p.name with
  | none =>
    rw [hget] at he
    by_cases hr : p.required
    · rw [if_pos hr] at he
      injection he with h2
      exact ⟨_, h2.symm⟩
    · rw [if_neg hr] at he
      cases he
  | some v =>
    rw [hget] at he
    dsimp only at he
    unfold Parameter.validateCoerce at he
    simp only [List.mem_cons, List.not_mem_nil, or_false] at hc
    rcases hc with h | h | h
    · rw [if_pos h] at he
      cases he
    · rw [h] at he
      rw [if_neg (by decide), if_pos rfl] at he
      cases hpi : pyIntOfString v with
      | none =>
        rw [hpi] at he
        injection he with h2
        exact ⟨_, h2.symm⟩
      | some n =>
        rw [hpi] at he
        cases he
    · rw [h] at he
      rw [if_neg (by decide), if_neg (by decide), if_pos rfl] at he
      cases he

/-- One unfolding step of `_validate_parameters`. -/
lemma validateParameters_cons (nm : String) (p : Parameter)
    (rest : ODict Parameter) (rk : ODict String) :
    validateParameters ((nm, p) :: rest) rk =
      match p.value rk with
      | Except.ok _ => validateParameters rest rk
      | Except.error (PyError.valueError _) => ValidationOutcome.configError
      | Except.error e => ValidationOutcome.escaped e := rfl

/-- With well-formed content kinds, validation either passes or exits with the
configuration error: no exception escapes. -/
lemma validateParameters_ok_or_config (params : ODict Parameter) (rk : ODict String)
    (hvalid : ∀ kv ∈ params, kv.2.content ∈ ["string", "integer", "boolean"]) :
    validateParameters params rk = ValidationOutcome.ok ∨
    validateParameters params rk = ValidationOutcome.configError := by
  induction params with
  | nil => exact Or.inl rfl
  | cons kv rest ih =>
    obtain ⟨nm, p⟩ := kv
    rw [validateParameters_cons]
    cases hv : p.value rk with
    | ok v =>
      exact ih (fun x hx => hvalid x (List.mem_cons_of_mem _ hx))
    | error e =>
      obtain ⟨m, hm⟩ := value_error_valueError p rk
        (hvalid (nm, p) (List.mem_cons_self _ _)) e hv
      subst hm
      exact Or.inr rfl

/-- If some registered parameter is required but absent from the parameter
map, validation does not pass. -/
lemma validateParameters_required_missing (params : ODict Parameter)
    (rk : ODict String) (kv : String × Parameter) (hmem : kv ∈ params)
    (hreq : kv.2.required = true) (habs : odGet rk kv.2.name = Option.none) :
    validateParameters params rk ≠ ValidationOutcome.ok := by
  induction params with
  | nil => cases hmem
  | cons hd rest ih =>
    obtain ⟨nm, p⟩ := hd
    rw [validateParameters_cons]
    cases hv : p.value rk with
    | ok v =>
      rcases List.mem_cons.mp hmem with heq | hmem2
      · exfalso
        rw [heq] at hreq habs
        unfold Parameter.value at hv
        rw [habs] at hv
        rw [if_pos hreq] at hv
        cases hv
      · exact ih hmem2
    | error e =>
      cases e with
      | valueError m => exact fun hok => ValidationOutcome.noConfusion hok
      | notImplementedError m => exact fun hok => ValidationOutcome.noConfusion hok
      | assertionError => exact fun hok => ValidationOutcome.noConfusion hok
      | keyError k => exact fun hok => ValidationOutcome.noConfusion hok

/-- **C2.** For a dispatched action other than the literal `meta-data`, every
registered parameter is validated before the handler runs: the handler is
invoked only if full validation passed, and when some required parameter is
absent from the parameter map the handler is never invoked and the process
exits with `OCF_ERR_CONFIGURED` (6). -/
theorem c2_validate_before_handler (actions : ODict ActionObj)
    (params : ODict Parameter) (handlers : String → HandlerResult) (env : Env)
    (act : String) (aobj : ActionObj)
    (henv : env.action = Option.some act) (hne : act ≠ "meta-data")
    (hfound : odGet actions act = Option.some aobj)
    (hvalid : ∀ kv ∈ params, kv.2.content ∈ ["string", "integer", "boolean"]) :
    ((execute actions params handlers env).invokedHandler.isSome = true →
      validateParameters params env.reskey = ValidationOutcome.ok) ∧
    ((∃ kv ∈ params, kv.2.required = true ∧ odGet env.reskey kv.2.name = Option.none) →
      execute actions params handlers env =
        { outcome := ProcessEnd.exited OCF_ERR_CONFIGURED, usagePrinted := false,
          invokedHandler := Option.none } ∧ OCF_ERR_CONFIGURED = 6) := by
  have hexec : execute actions params handlers env =
      match validateParameters params env.reskey with
      | ValidationOutcome.configError =>
        { outcome := ProcessEnd.exited OCF_ERR_CONFIGURED, usagePrinted := false,
          invokedHandler := Option.none }
      | ValidationOutcome.escaped _ =>
        { outcome := ProcessEnd.uncaught, usagePrinted := false,
          invokedHandler := Option.none }
      | ValidationOutcome.ok =>
        match handlers aobj.actionMethod with
        | HandlerResult.ret c =>
          { outcome := ProcessEnd.exited c, usagePrinted := false,
            invokedHandler := Option.some aobj.actionMethod }
        | HandlerResult.raises =>
          { outcome := ProcessEnd.uncaught, usagePrinted := false,
            invokedHandler := Option.some aobj.actionMethod } := by
    unfold execute
    rw [henv]
    dsimp only
    rw [hfound]
    dsimp only
    rw [if_pos hne]
  constructor
  · intro hsome
    cases hv : validateParameters params env.reskey with
    | ok => rfl
    | configError =>
      rw [hexec, hv] at hsome
      cases hsome
    | escaped e =>
      rw [hexec, hv] at hsome
      cases hsome
  · rintro ⟨kv, hmem, hreq, habs⟩
    have hnok := validateParameters_required_missing params env.reskey kv hmem hreq habs
    rcases validateParameters_ok_or_config params env.reskey hvalid with h | h
    · exact absurd h hnok
    · rw [hexec, h]
      exact ⟨rfl, rfl⟩

/-- A required string parameter named `hba_type`, as the test agent declares. -/
def c2ReqParam : Parameter :=
  { shortdesc := "s", longdesc := "l", unique := false, required := true,
    content := "string", default := Option.none, name := "hba_type" }

def c2Params : ODict Parameter := [("hba_type", c2ReqParam)]

/-- Witness for C2: dispatching `start` with the required `hba_type` missing
from the parameter map exits with code 6 and never invokes the handler. -/
theorem c2_validate_before_handler_witness :
    execute demoActions c2Params (fun _ => HandlerResult.ret 0) demoEnvStart =
      { outcome := ProcessEnd.exited OCF_ERR_CONFIGURED, usagePrinted := false,
        invokedHandler := Option.none } ∧ OCF_ERR_CONFIGURED = 6 :=
  (c2_validate_before_handler demoActions c2Params (fun _ => HandlerResult.ret 0)
      demoEnvStart "start" demoActionStart rfl (by decide) rfl (by decide)).2
    ⟨("hba_type", c2ReqParam), by decide, rfl, rfl⟩

/-! ## Structure of the rendered XML -/

lemma addChild_tag (x c : Xml) : (x.addChild c).tag = x.tag := by
  cases x
  rfl

lemma addChild_attrs (x c : Xml) : (x.addChild c).attrs = x.attrs := by
  cases x
  rfl

lemma addChild_text (x c : Xml) : (x.addChild c).text = x.text := by
  cases x
  rfl

lemma addChild_children (x c : Xml) : (x.addChild c).children = x.children ++ [c] := by
  cases x
  rfl

/-- `Action.append_xml` appends exactly one sibling `<action>` element per
chain link to the given parent, in outermost-first order, and changes nothing
else about the parent. -/
lemma appendXml_spec (a : ActionObj) (x : Xml) :
    (a.appendXml x).tag = x.tag ∧
    (a.appendXml x).attrs = x.attrs ∧
    (a.appendXml x).text = x.text ∧
    (a.appendXml x).children =
      x.children ++ a.links.map (fun l => actionElem l.1 l.2) := by
  induction a generalizing x with
  | term n h f =>
    exact ⟨addChild_tag x _, addChild_attrs x _, addChild_text x _,
      addChild_children x _⟩
  | wrap n h inner ih =>
    obtain ⟨ht, hat, htx, hch⟩ := ih (x.addChild (actionElem n h))
    refine ⟨ht.trans (addChild_tag x _), hat.trans (addChild_attrs x _),
      htx.trans (addChild_text x _), ?_⟩
    show (inner.appendXml (x.addChild (actionElem n h))).children = _
    rw [hch, addChild_children]
    simp [ActionObj.links, List.append_assoc]

/-- The element built for one link carries exactly that link's attributes. -/
lemma actionElem_fields (n : String) (h : ActionHints) :
    (actionElem n h).children = [] ∧
    (actionElem n h).tag = "action" ∧
    (actionElem n h).attr "name" = Option.some n ∧
    (actionElem n h).attr "timeout" = Option.some (toString h.timeout) ∧
    (actionElem n h).attr "interval" = h.interval.map (fun i => toString i) ∧
    (actionElem n h).attr "start-delay" = h.startDelay.map (fun i => toString i) ∧
    (actionElem n h).attr "depth" = h.depth.map (fun i => toString i) ∧
    (actionElem n h).attr "role" = h.role := by
  obtain ⟨t, i, sd, d, r⟩ := h
  cases i <;> cases sd <;> cases d <;> cases r <;>
    exact ⟨rfl, rfl, rfl, rfl, rfl, rfl, rfl, rfl⟩

/-- **C3.** Rendering a chain of action specs that wrap one handler emits
exactly one `<action>` element per link, all as direct (non-nested, childless)
siblings appended to the `<actions>` node, in outermost-first declaration
order, each element carrying its own link's name, timeout, interval,
start-delay, depth and role attributes. -/
theorem c3_chain_unrolled_to_siblings (a : ActionObj) (actionsNode : Xml) :
    (a.appendXml actionsNode).children =
      actionsNode.children ++ a.links.map (fun l => actionElem l.1 l.2) ∧
    (a.appendXml actionsNode).tag = actionsNode.tag ∧
    (a.appendXml actionsNode).children.length =
      actionsNode.children.length + a.links.length ∧
    (∀ l ∈ a.links,
      (actionElem l.1 l.2).children = [] ∧
      (actionElem l.1 l.2).tag = "action" ∧
      (actionElem l.1 l.2).attr "name" = Option.some l.1 ∧
      (actionElem l.1 l.2).attr "timeout" = Option.some (toString l.2.timeout) ∧
      (actionElem l.1 l.2).attr "interval" = l.2.interval.map (fun i => toString i) ∧
      (actionElem l.1 l.2).attr "start-delay" = l.2.startDelay.map (fun i => toString i) ∧
      (actionElem l.1 l.2).attr "depth" = l.2.depth.map (fun i => toString i) ∧
      (actionElem l.1 l.2).attr "role" = l.2.role) := by
  obtain ⟨ht, _, _, hch⟩ := appendXml_spec a actionsNode
  refine ⟨hch, ht, ?_, fun l _ => actionElem_fields l.1 l.2⟩
  rw [hch]
  simp

/-- The three-link `monitor` chain of the test agent, outermost first:
plain recurring monitor, role Slave, role Master. -/
def demoMonitorChain : ActionObj :=
  ActionObj.wrap "monitor"
    { timeout := 20, interval := Option.some 10, depth := Option.some 0 }
    (ActionObj.wrap "monitor"
      { timeout := 20, interval := Option.some 20, depth := Option.some 0,
        role := Option.some "Slave" }
      (ActionObj.term "monitor"
        { timeout := 20, interval := Option.some 10, depth := Option.some 0,
          role := Option.some "Master" }
        "monitor"))

/-- Witness for C3 on the three-link `monitor` chain rendered into an empty
`<actions>` node. -/
theorem c3_chain_unrolled_to_siblings_witness :
    (demoMonitorChain.appendXml (Xml.elem "actions" [] Option.none [])).children =
      demoMonitorChain.links.map (fun l => actionElem l.1 l.2) ∧
    (demoMonitorChain.appendXml (Xml.elem "actions" [] Option.none [])).children.length = 3 := by
  have h := c3_chain_unrolled_to_siblings demoMonitorChain
    (Xml.elem "actions" [] Option.none [])
  exact ⟨by simpa using h.1, by rw [h.2.2.1]; rfl⟩

/-! ## C7: metadata round-trip -/

lemma paramElem_tag (p : Parameter) : (paramElem p).tag = "parameter" := rfl

lemma paramElem_attr_name (p : Parameter) :
    (paramElem p).attr "name" = Option.some p.name := rfl

/-- Folding the parameter registry into the `<parameters>` node appends one
`<parameter>` element per registry entry, in registry order. -/
lemma foldl_paramXml (ps : ODict Parameter) (node : Xml) :
    (ps.foldl (fun n kv => kv.2.appendXml n) node).tag = node.tag ∧
    (ps.foldl (fun n kv => kv.2.appendXml n) node).children =
      node.children ++ ps.map (fun kv => paramElem kv.2) := by
  induction ps generalizing node with
  | nil => exact ⟨rfl, (List.append_nil _).symm⟩
  | cons kv rest ih =>
    rw [List.foldl_cons]
    obtain ⟨ht, hch⟩ := ih (kv.2.appendXml node)
    constructor
    · rw [ht]
      exact addChild_tag node _
    · rw [hch]
      show (node.addChild (paramElem kv.2)).children ++ _ = _
      rw [addChild_children]
      simp [List.append_assoc]

/-- Folding the action registry into the `<actions>` node appends the fully
unrolled chains, in registry order. -/
lemma foldl_actionXml (as : ODict ActionObj) (node : Xml) :
    (as.foldl (fun n kv => kv.2.appendXml n) node).tag = node.tag ∧
    (as.foldl (fun n kv => kv.2.appendXml n) node).children =
      node.children ++ as.flatMap (fun kv => kv.2.links.map (fun l => actionElem l.1 l.2)) := by
  induction as generalizing node with
  | nil => exact ⟨rfl, (List.append_nil _).symm⟩
  | cons kv rest ih =>
    rw [List.foldl_cons]
    obtain ⟨ht, hch⟩ := ih (kv.2.appendXml node)
    obtain ⟨ht2, _, _, hch2⟩ := appendXml_spec kv.2 node
    constructor
    · rw [ht, ht2]
    · rw [hch, hch2, List.flatMap_cons]
      simp [List.flatMap_cons, List.append_assoc]

/-- The `<parameters>` child of the rendered document is the parameter fold. -/
lemma metaData_findChild_parameters (name : String) (version : Option String)
    (sd ld : String) (params : ODict Parameter) (actions : ODict ActionObj) :
    (metaData name version sd ld params actions).findChild "parameters" =
      Option.some (params.foldl (fun n kv => kv.2.appendXml n)
        (Xml.elem "parameters" [] Option.none [])) := by
  have ht := (foldl_paramXml params (Xml.elem "parameters" [] Option.none [])).1
  unfold metaData Xml.findChild
  dsimp only [Xml.children]
  rw [List.find?_cons_of_neg _ (by simp [Xml.tag]), List.find?_cons_of_neg _ (by simp [Xml.tag]),
    List.find?_cons_of_neg _ (by simp [Xml.tag]), List.find?_cons_of_pos _ (by rw [ht]; rfl)]

/-- The `<actions>` child of the rendered document is the action fold. -/
lemma metaData_findChild_actions (name : String) (version : Option String)
    (sd ld : String) (params : ODict Parameter) (actions : ODict ActionObj) :
    (metaData name version sd ld params actions).findChild "actions" =
      Option.some (actions.foldl (fun n kv => kv.2.appendXml n)
        (Xml.elem "actions" [] Option.none [])) := by
  have htp := (foldl_paramXml params (Xml.elem "parameters" [] Option.none [])).1
  have hta := (foldl_actionXml actions (Xml.elem "actions" [] Option.none [])).1
  unfold metaData Xml.findChild
  dsimp only [Xml.children]
  rw [List.find?_cons_of_neg _ (by simp [Xml.tag]), List.find?_cons_of_neg _ (by simp [Xml.tag]),
    List.find?_cons_of_neg _ (by simp [Xml.tag]), List.find?_cons_of_neg _ (by rw [htp]; simp [Xml.tag]),
    List.find?_cons_of_pos _ (by rw [hta]; rfl)]

lemma filterMap_some_map {α β : Type} (g : α → β) (l : List α) :
    l.filterMap (fun x => Option.some (g x)) = l.map g := by
  induction l with
  | nil => rfl
  | cons a l ih => simp [List.filterMap_cons, ih]

/-- Reading the parameter names back from the rendered document yields the
stored name of every registered parameter, in registry order. -/
lemma parsedParameterNames_metaData (name : String) (version : Option String)
    (sd ld : String) (params : ODict Parameter) (actions : ODict ActionObj) :
    parsedParameterNames (metaData name version sd ld params actions) =
      params.map (fun kv => kv.2.name) := by
  unfold parsedParameterNames
  rw [metaData_findChild_parameters]
  dsimp only
  rw [(foldl_paramXml params _).2]
  dsimp only [Xml.children]
  rw [List.nil_append, List.filterMap_map]
  have hf : (fun kv : String × Parameter =>
      (if (paramElem kv.2).tag = "parameter" then (paramElem kv.2).attr "name"
        else Option.none)) = fun kv => Option.some kv.2.name :=
    funext (fun kv => rfl)
  rw [show ((fun c : Xml => if c.tag = "parameter" then c.attr "name" else Option.none) ∘
      fun kv : String × Parameter => paramElem kv.2) =
      fun kv : String × Parameter => Option.some kv.2.name from funext (fun kv => rfl)]
  exact filterMap_some_map _ _

/-- Reading the action names back from the rendered document yields, for each
registry entry in order, one copy of each link's name. -/
lemma parsedActionNames_metaData (name : String) (version : Option String)
    (sd ld : String) (params : ODict Parameter) (actions : ODict ActionObj) :
    parsedActionNames (metaData name version sd ld params actions) =
      actions.flatMap (fun kv => kv.2.links.map (fun l => l.1)) := by
  unfold parsedActionNames
  rw [metaData_findChild_actions]
  dsimp only
  rw [(foldl_actionXml actions _).2]
  dsimp only [Xml.children]
  rw [List.nil_append]
  induction actions with
  | nil => rfl
  | cons kv rest ih =>
    rw [List.flatMap_cons, List.flatMap_cons, List.filterMap_append, ih]
    rw [List.filterMap_map]
    rw [show ((fun c : Xml => if c.tag = "action" then c.attr "name" else Option.none) ∘
        fun l : String × ActionHints => actionElem l.1 l.2) =
        fun l : String × ActionHints => Option.some l.1 from funext (fun l => rfl)]
    rw [filterMap_some_map]

/-- Every chain has at least one link. -/
lemma links_ne_nil (a : ActionObj) : a.links ≠ [] := by
  cases a <;> simp [ActionObj.links]

/-- Removing duplicates from a non-empty constant block followed by a list
that avoids the block value keeps one copy of the value in front. -/
lemma dedup_block_append (k : String) (names L : List String)
    (h : ∀ x ∈ names, x = k) (hne : names ≠ []) (hk : k ∉ L) :
    (names ++ L).dedup = k :: L.dedup := by
  induction names with
  | nil => exact absurd rfl hne
  | cons a rest ih =>
    have ha : a = k := h a (List.mem_cons_self _ _)
    subst ha
    by_cases hrest : rest = []
    · subst hrest
      rw [List.cons_append, List.nil_append]
      exact List.dedup_cons_of_not_mem hk
    · have hmem : a ∈ rest ++ L := by
        obtain ⟨b, hb⟩ := List.exists_mem_of_ne_nil _ hrest
        have hbk := h b (List.mem_cons_of_mem _ hb)
        exact List.mem_append_left _ (hbk ▸ hb)
      rw [List.cons_append, List.dedup_cons_of_mem hmem]
      exact ih (fun x hx => h x (List.mem_cons_of_mem _ hx)) hrest

/-- With distinct registry keys and every link named after its key, the
first-to-last distinct action names of the unrolled rendering are exactly the
registry keys. -/
lemma dedup_bind_links (as : ODict ActionObj)
    (hnodup : (odKeys as).Nodup)
    (ha : ∀ kv ∈ as, ∀ l ∈ kv.2.links, l.1 = kv.1) :
    (as.flatMap (fun kv => kv.2.links.map (fun l => l.1))).dedup = odKeys as := by
  induction as with
  | nil => rfl
  | cons kv rest ih =>
    rw [List.flatMap_cons]
    have hblock : ∀ x ∈ kv.2.links.map (fun l => l.1), x = kv.1 := by
      intro x hx
      obtain ⟨l, hl, hlx⟩ := List.mem_map.mp hx
      rw [← hlx]
      exact ha kv (List.mem_cons_self _ _) l hl
    have hne : kv.2.links.map (fun l => l.1) ≠ [] := by
      simpa using links_ne_nil kv.2
    have hcons := List.nodup_cons.mp hnodup
    have hk : kv.1 ∉ rest.flatMap (fun kv => kv.2.links.map (fun l => l.1)) := by
      intro hmem
      obtain ⟨kv2, hkv2, hx⟩ := List.mem_flatMap.mp hmem
      obtain ⟨l, hl, hlx⟩ := List.mem_map.mp hx
      have hlk := ha kv2 (List.mem_cons_of_mem _ hkv2) l hl
      have : kv.1 ∈ odKeys rest := by
        rw [← hlx, hlk]
        exact List.mem_map_of_mem _ hkv2
      exact hcons.1 this
    rw [dedup_block_append kv.1 _ _ hblock hne hk,
      ih hcons.2 (fun x hx => ha x (List.mem_cons_of_mem _ hx))]
    rfl

/-- **C7.** Rendering an agent descriptor to the metadata document and
reading the document back yields exactly the declared parameter names (in
declaration order) and exactly the declared action names (first occurrences
in declaration order, one occurrence per chain link). -/
theorem c7_metadata_roundtrip (name : String) (version : Option String)
    (sd ld : String) (params : ODict Parameter) (actions : ODict ActionObj)
    (hp : ∀ kv ∈ params, kv.2.name = kv.1)
    (ha : ∀ kv ∈ actions, ∀ l ∈ kv.2.links, l.1 = kv.1)
    (hnodup : (odKeys actions).Nodup) :
    parsedParameterNames (metaData name version sd ld params actions) =
      odKeys params ∧
    (parsedActionNames (metaData name version sd ld params actions)).dedup =
      odKeys actions := by
  constructor
  · rw [parsedParameterNames_metaData]
    exact List.map_congr_left hp
  · rw [parsedActionNames_metaData]
    exact dedup_bind_links actions hnodup ha

/-- The two parameters of the test agent. -/
def demoFrobParam : Parameter :=
  { shortdesc := "Path to frobnicate binary", longdesc := "ld", unique := false,
    required := false, content := "string", default := Option.none,
    name := "frobnicate" }

def demoParams7 : ODict Parameter :=
  [("hba_type", c2ReqParam), ("frobnicate", demoFrobParam)]

/-- The full action registry of the test agent. -/
def demoActions7 : ODict ActionObj :=
  [("meta-data", demoActionMetaData),
   ("validate-all", ActionObj.term "validate-all" { timeout := 5 } "validate_all"),
   ("start", demoActionStart),
   ("stop", ActionObj.term "stop" { timeout := 20 } "stop"),
   ("monitor", demoMonitorChain)]

/-- Witness for C7 on the test agent registries: re-parsing recovers both
name lists in declaration order. -/
theorem c7_metadata_roundtrip_witness :
    parsedParameterNames
        (metaData "TestAgent" Option.none "sd" "ld" demoParams7 demoActions7) =
      ["hba_type", "frobnicate"] ∧
    (parsedActionNames
        (metaData "TestAgent" Option.none "sd" "ld" demoParams7 demoActions7)).dedup =
      ["meta-data", "validate-all", "start", "stop", "monitor"] := by
  have h := c7_metadata_roundtrip "TestAgent" Option.none "sd" "ld"
    demoParams7 demoActions7 (by decide) (by decide) (by decide)
  exact ⟨h.1.trans rfl, h.2.trans rfl⟩

end PyOCF
